import Mathlib

/-!
# swaybg: colour validation, background fitting, discovery and the configure loop

A shallow embedding of `swaybg/main.c` and `common/background-image.c`.

Conventions of the embedding:

* A C string is the list of the bytes stored at its address; the string ends at
  the first zero byte, or at the end of the list, where the terminator is
  implied. `strlen` and `char_at` read it the way the C code does.
* `int` values are mathematical integers; a conversion into `int` from a wider
  or unsigned type goes through `to_int32` (two's complement).
* `double` arithmetic is idealised as exact rational arithmetic.
* Calls into cairo, the Wayland client library and the buffer pool are recorded
  in the order in which the code issues them.
-/

namespace Swaybg

/-! ## C strings and machine integers -/

/-- Bytes of a C string, terminator not included (a zero byte ends it early). -/
abbrev CStr := List Nat

/-- Bytes of a string literal. -/
def cstr (s : String) : CStr := s.toList.map Char.toNat

/-- Result of `strlen`: number of bytes before the first zero byte. -/
def strlen : CStr → Nat
  | [] => 0
  | c :: cs => if c = 0 then 0 else strlen cs + 1

/-- Byte read by `s[i]`, for `i` up to the terminator. -/
def char_at (s : CStr) (i : Nat) : Nat :=
  if i < strlen s then s.getD i 0 else 0

/-- Conversion of an integer value to a 32-bit `int` (two's complement). -/
def to_int32 (n : Int) : Int := (n + 2147483648) % 4294967296 - 2147483648

/-- Result of `strcmp(a, b) == 0`: the two strings have the same bytes up to the
terminator. -/
def streq (a b : CStr) : Bool :=
  decide (a.takeWhile (fun c => c ≠ 0) = b.takeWhile (fun c => c ≠ 0))

/-- The C library test `isxdigit` in the C locale: `0-9`, `A-F`, `a-f`. -/
def isxdigit (c : Nat) : Bool :=
  (decide ('0'.toNat ≤ c) && decide (c ≤ '9'.toNat))
    || (decide ('A'.toNat ≤ c) && decide (c ≤ 'F'.toNat))
    || (decide ('a'.toNat ≤ c) && decide (c ≤ 'f'.toNat))

/-! ## Data model -/

/-- The enumeration `enum background_mode` of `background-image.h`. -/
inductive background_mode where
  | BACKGROUND_MODE_STRETCH
  | BACKGROUND_MODE_FILL
  | BACKGROUND_MODE_FIT
  | BACKGROUND_MODE_CENTER
  | BACKGROUND_MODE_TILE
  | BACKGROUND_MODE_SOLID_COLOR
  deriving DecidableEq

open background_mode

/-- A decoded image surface, as far as the code looks at it: the results of
`cairo_image_surface_get_width` and `cairo_image_surface_get_height`. -/
structure cairo_surface_t where
  width : Int
  height : Int
  deriving DecidableEq

/-- The fields of `struct swaybg_args`. -/
structure swaybg_args where
  output_idx : Int
  path : CStr
  mode : background_mode
  deriving DecidableEq

/-- The fields of `struct swaybg_context`; a null `image` is `none`. -/
structure swaybg_context where
  color : Nat
  image : Option cairo_surface_t
  deriving DecidableEq

/-! ## Colour validation (`is_valid_color`, `prepare_context`) -/

/-- The loop `for (i = 1; i < len; ++i) if (!isxdigit(color[i])) return false;`
followed by `return true`, entered at index `i` with `n` iterations left
(`n = len - i`). -/
def xdigit_loop (color : CStr) : Nat → Nat → Bool
  | _, 0 => true
  | i, n + 1 => if !isxdigit (char_at color i) then false else xdigit_loop color (i + 1) n

/-- The function `is_valid_color` of `swaybg/main.c`. -/
def is_valid_color (color : CStr) : Bool :=
  let len : Int := to_int32 (strlen color)
  if len ≠ 7 ∨ char_at color 0 ≠ '#'.toNat then false
  else xdigit_loop color 1 (len - 1).toNat

/-- The function `prepare_context` of `swaybg/main.c`, returning its result and
the context it leaves behind. `parse_color` (declared in `util.h`) and
`load_background_image` (which hands the path to the image decoder) are
parameters. -/
def prepare_context (parse_color : CStr → Nat)
    (load_background_image : CStr → Option cairo_surface_t)
    (args : swaybg_args) (context : swaybg_context) : Bool × swaybg_context :=
  if args.mode = BACKGROUND_MODE_SOLID_COLOR then
    (is_valid_color args.path, { context with color := parse_color args.path })
  else
    match load_background_image args.path with
    | none => (false, { context with image := none })
    | some image => (true, { context with image := some image })

/-! ## The compositing engine (`render_background_image`) -/

/-- The cairo calls the code issues on a drawing context. The three calls of
the tile case (`cairo_pattern_create_for_surface`, `cairo_pattern_set_extend`
with `CAIRO_EXTEND_REPEAT`, `cairo_set_source`) are the single entry
`cairo_set_source_repeat`. -/
inductive cairo_call where
  | cairo_scale (sx sy : ℚ)
  | cairo_set_source_surface (x y : ℚ)
  | cairo_set_source_repeat
  | cairo_set_source_u32 (color : Nat)
  | cairo_paint
  deriving DecidableEq

open cairo_call

/-- The test `window_ratio > bg_ratio` of the fill and fit cases, with
`window_ratio = (double)wwidth / wheight` and `bg_ratio = width / height`. -/
def window_wider (image : cairo_surface_t) (wwidth wheight : Int) : Bool :=
  let width : ℚ := image.width
  let height : ℚ := image.height
  let window_ratio : ℚ := (wwidth : ℚ) / wheight
  let bg_ratio : ℚ := width / height
  decide (window_ratio > bg_ratio)

/-- The function `render_background_image` of `common/background-image.c`: the
cairo calls it issues, in order, or `none` when it stops at `assert(0)`. -/
def render_background_image (image : cairo_surface_t) (mode : background_mode)
    (wwidth wheight : Int) : Option (List cairo_call) :=
  let width : ℚ := image.width
  let height : ℚ := image.height
  match mode with
  | BACKGROUND_MODE_STRETCH =>
    some [cairo_scale ((wwidth : ℚ) / width) ((wheight : ℚ) / height),
      cairo_set_source_surface 0 0, cairo_paint]
  | BACKGROUND_MODE_FILL =>
    if window_wider image wwidth wheight then
      let scale : ℚ := (wwidth : ℚ) / width
      some [cairo_scale scale scale,
        cairo_set_source_surface 0 ((wheight : ℚ) / 2 / scale - height / 2), cairo_paint]
    else
      let scale : ℚ := (wheight : ℚ) / height
      some [cairo_scale scale scale,
        cairo_set_source_surface ((wwidth : ℚ) / 2 / scale - width / 2) 0, cairo_paint]
  | BACKGROUND_MODE_FIT =>
    if window_wider image wwidth wheight then
      let scale : ℚ := (wheight : ℚ) / height
      some [cairo_scale scale scale,
        cairo_set_source_surface ((wwidth : ℚ) / 2 / scale - width / 2) 0, cairo_paint]
    else
      let scale : ℚ := (wwidth : ℚ) / width
      some [cairo_scale scale scale,
        cairo_set_source_surface 0 ((wheight : ℚ) / 2 / scale - height / 2), cairo_paint]
  | BACKGROUND_MODE_CENTER =>
    some [cairo_set_source_surface ((wwidth : ℚ) / 2 - width / 2) ((wheight : ℚ) / 2 - height / 2),
      cairo_paint]
  | BACKGROUND_MODE_TILE => some [cairo_set_source_repeat, cairo_paint]
  | BACKGROUND_MODE_SOLID_COLOR => none

/-- What a sequence of cairo calls has set up for painting: the accumulated
scale of the transformation matrix, the position of the source origin in user
space, and whether the source repeats. -/
structure transform where
  scale_x : ℚ
  scale_y : ℚ
  origin_x : ℚ
  origin_y : ℚ
  tiled : Bool
  deriving DecidableEq

/-- A context on which nothing has been called yet: identity matrix. -/
def transform.identity : transform := ⟨1, 1, 0, 0, false⟩

/-- Effect of one cairo call on the transform: `cairo_scale` multiplies the
scale, setting a source places its origin, the other calls leave it alone. -/
def cairo_step (t : transform) : cairo_call → transform
  | cairo_scale sx sy => { t with scale_x := t.scale_x * sx, scale_y := t.scale_y * sy }
  | cairo_set_source_surface x y => { t with origin_x := x, origin_y := y, tiled := false }
  | cairo_set_source_repeat => { t with origin_x := 0, origin_y := 0, tiled := true }
  | cairo_set_source_u32 _ => t
  | cairo_paint => t

/-- The transform in effect when `render_background_image` paints, on a context
whose matrix is the identity on entry. -/
def paint_transform (image : cairo_surface_t) (mode : background_mode)
    (wwidth wheight : Int) : Option transform :=
  (render_background_image image mode wwidth wheight).map
    (List.foldl cairo_step transform.identity)

/-- Source point painted at the destination point `(x, y)`. -/
def dest_to_source (t : transform) (x y : ℚ) : ℚ × ℚ :=
  (x / t.scale_x - t.origin_x, y / t.scale_y - t.origin_y)

/-- Destination point at which the source point `(sx, sy)` lands. -/
def source_to_dest (t : transform) (sx sy : ℚ) : ℚ × ℚ :=
  ((sx + t.origin_x) * t.scale_x, (sy + t.origin_y) * t.scale_y)

/-- Index of the copy of a repeating source of extent `size` that covers the
source coordinate `c`. -/
def tile_index (size c : ℚ) : Int := ⌊c / size⌋

/-- Number of `cairo_paint` calls in a list of cairo calls. -/
def count_paints (cs : List cairo_call) : Nat :=
  (cs.filter (fun c => decide (c = cairo_paint))).length

/-! ## The surface session (`swaybg/main.c`) -/

/-- Modelled from the spec: `get_next_buffer` of `pool-buffer.c`, which is not
among the sources at hand, is taken to hand back a drawable buffer of the
requested size (section 4.2, `acquire(width, height) -> PixelBuffer`); the
constructor of that name records the call. The other constructors are the calls
into the Wayland client library, the layer-shell protocol and cairo that the
session code issues. -/
inductive call where
  | zwlr_layer_surface_v1_ack_configure (serial : Nat)
  | get_next_buffer (width height : Nat)
  | cairo (c : cairo_call)
  | wl_surface_attach
  | wl_surface_damage (x y width height : Int)
  | wl_surface_commit
  | zwlr_layer_surface_v1_destroy
  | wl_surface_destroy
  deriving DecidableEq

open call

/-- The fields of `struct swaybg_state` that the handlers read or write. A bound
global is kept as the registry name it was bound from, a null pointer is `none`.
`static_output_idx` is the function-local `static int output_idx` of
`handle_global`; `calls` collects the external calls issued so far, oldest
first. -/
structure swaybg_state where
  args : swaybg_args
  context : swaybg_context
  compositor : Option Nat
  layer_shell : Option Nat
  shm : Option Nat
  output : Option Nat
  run_display : Bool
  width : Nat
  height : Nat
  static_output_idx : Int
  calls : List call
  deriving DecidableEq

/-- A global announced by the registry: the arguments of `handle_global`. -/
structure wl_global where
  name : Nat
  interface : CStr
  version : Nat
  deriving DecidableEq

/-- The string `wl_compositor_interface.name`. -/
def wl_compositor_interface_name : CStr := cstr "wl_compositor"
/-- The string `wl_shm_interface.name`. -/
def wl_shm_interface_name : CStr := cstr "wl_shm"
/-- The string `wl_output_interface.name`. -/
def wl_output_interface_name : CStr := cstr "wl_output"
/-- The string `zwlr_layer_shell_v1_interface.name`. -/
def zwlr_layer_shell_v1_interface_name : CStr := cstr "zwlr_layer_shell_v1"

/-- The function `handle_global` of `swaybg/main.c`. -/
def handle_global (state : swaybg_state) (g : wl_global) : swaybg_state :=
  if streq g.interface wl_compositor_interface_name then
    { state with compositor := some g.name }
  else if streq g.interface wl_shm_interface_name then
    { state with shm := some g.name }
  else if streq g.interface wl_output_interface_name then
    let state1 :=
      if state.static_output_idx = state.args.output_idx then
        { state with output := some g.name }
      else state
    { state1 with static_output_idx := to_int32 (state1.static_output_idx + 1) }
  else if streq g.interface zwlr_layer_shell_v1_interface_name then
    { state with layer_shell := some g.name }
  else state

/-- The function `render_frame` of `swaybg/main.c`; `none` when it does not
return (null image, or the assertion of `render_background_image`). -/
def render_frame (state : swaybg_state) : Option swaybg_state :=
  let acquired := state.calls ++ [get_next_buffer state.width state.height]
  let painted : Option (List call) :=
    if state.args.mode = BACKGROUND_MODE_SOLID_COLOR then
      some (acquired ++ [cairo (cairo_set_source_u32 state.context.color), cairo cairo_paint])
    else
      match state.context.image with
      | none => none
      | some image =>
        (render_background_image image state.args.mode
          (to_int32 state.width) (to_int32 state.height)).map
          (fun cs => acquired ++ cs.map cairo)
  painted.map (fun cs =>
    { state with calls := cs ++ [wl_surface_attach,
        wl_surface_damage 0 0 (to_int32 state.width) (to_int32 state.height),
        wl_surface_commit] })

/-- The function `layer_surface_configure` of `swaybg/main.c`. -/
def layer_surface_configure (state : swaybg_state) (serial width height : Nat) :
    Option swaybg_state :=
  render_frame { state with
    width := width
    height := height
    calls := state.calls ++ [zwlr_layer_surface_v1_ack_configure serial] }

/-- The function `layer_surface_closed` of `swaybg/main.c`. -/
def layer_surface_closed (state : swaybg_state) : swaybg_state :=
  { state with
    calls := state.calls ++ [zwlr_layer_surface_v1_destroy, wl_surface_destroy]
    run_display := false }

/-- An event of the layer surface, as delivered to `layer_surface_listener`. -/
inductive event where
  | configure (serial width height : Nat)
  | closed
  deriving DecidableEq

/-- Delivery of one event to the handler registered for it. -/
def dispatch_event (state : swaybg_state) : event → Option swaybg_state
  | event.configure serial width height => layer_surface_configure state serial width height
  | event.closed => some (layer_surface_closed state)

/-- Delivery of a batch of events, in order. -/
def dispatch_events : swaybg_state → List event → Option swaybg_state
  | state, [] => some state
  | state, e :: es =>
    match dispatch_event state e with
    | none => none
    | some state1 => dispatch_events state1 es

/-- How a run of `main` ends: it returns a code, it is stopped by a failed
assertion or a null dereference, or it sits in `wl_display_dispatch` with no
further message to come. -/
inductive outcome where
  | returned (code : Int)
  | aborted
  | waiting
  deriving DecidableEq

open outcome

/-- The loop `while (wl_display_dispatch(display) != -1 && run_display)` of
`main` and the `return 0` after it. Each entry of the list is one call of
`wl_display_dispatch`: `none` when it returns `-1`, otherwise the events it
delivers. -/
def dispatch_loop : swaybg_state → List (Option (List event)) → outcome
  | _, [] => waiting
  | _, none :: _ => returned 0
  | state, some es :: rest =>
    match dispatch_events state es with
    | none => aborted
    | some state1 => if state1.run_display then dispatch_loop state1 rest else returned 0

/-- The mode selected by the `strcmp` chain of `main`; `none` is the final
`else` with `return 1`. -/
def mode_of_name (name : CStr) : Option background_mode :=
  if streq name (cstr "stretch") then some BACKGROUND_MODE_STRETCH
  else if streq name (cstr "fill") then some BACKGROUND_MODE_FILL
  else if streq name (cstr "fit") then some BACKGROUND_MODE_FIT
  else if streq name (cstr "center") then some BACKGROUND_MODE_CENTER
  else if streq name (cstr "tile") then some BACKGROUND_MODE_TILE
  else if streq name (cstr "solid_color") then some BACKGROUND_MODE_SOLID_COLOR
  else none

/-- Everything `main` obtains from outside the program: the C library, the
colour parser, the image decoder and the display server. -/
structure environment where
  atoi : CStr → Int
  parse_color : CStr → Nat
  load_background_image : CStr → Option cairo_surface_t
  wl_display_connect : Bool
  globals : List wl_global
  wl_compositor_create_surface : Bool
  get_layer_surface : Bool
  roundtrip_events : List event
  dispatches : List (Option (List event))

/-- The zero-initialised `struct swaybg_state` of `main`, with its `args`. -/
def initial_state (args : swaybg_args) : swaybg_state :=
  ⟨args, ⟨0, none⟩, none, none, none, none, false, 0, 0, 0, []⟩

/-- The registry round-trip of `main`: `handle_global` runs on every announced
global, in order. -/
def discover (state : swaybg_state) (globals : List wl_global) : swaybg_state :=
  globals.foldl handle_global state

/-- The `struct swaybg_args` that `main` fills from `argv` once the mode name is
recognised. -/
def startup_args (env : environment) (argv : List CStr) (mode : background_mode) :
    swaybg_args :=
  ⟨to_int32 (env.atoi (argv.getD 1 [])), argv.getD 2 [], mode⟩

/-- The call `prepare_context(&state)` of `main`, on the zeroed state. -/
def startup_context (env : environment) (args : swaybg_args) : Bool × swaybg_context :=
  prepare_context env.parse_color env.load_background_image args (initial_state args).context

/-- The state of `main` after the registry round-trip. -/
def discovered_state (env : environment) (args : swaybg_args) : swaybg_state :=
  discover { initial_state args with context := (startup_context env args).2 } env.globals

/-- The condition of `assert(state.compositor && state.layer_shell &&
state.output && state.shm)`. -/
def all_bound (state : swaybg_state) : Bool :=
  state.compositor.isSome && state.layer_shell.isSome && state.output.isSome && state.shm.isSome

/-- The function `main` of `swaybg/main.c`; `argv` holds the `argc` arguments.
A failed `assert` ends the run as `aborted`. -/
def main (env : environment) (argv : List CStr) : outcome :=
  if argv.length ≠ 4 then returned 1
  else
    match mode_of_name (argv.getD 3 []) with
    | none => returned 1
    | some mode =>
      let args := startup_args env argv mode
      if !(startup_context env args).1 then returned 1
      else if !env.wl_display_connect then aborted
      else
        let state := discovered_state env args
        if !all_bound state then aborted
        else if !env.wl_compositor_create_surface then aborted
        else if !env.get_layer_surface then aborted
        else
          let state := { state with run_display := true, calls := state.calls ++ [wl_surface_commit] }
          match dispatch_events state env.roundtrip_events with
          | none => aborted
          | some state => dispatch_loop state env.dispatches

/-- A call of `wl_display_dispatch` after which the loop of `main` stops: it
returns `-1`, or it delivers a close notification. -/
def terminating : Option (List event) → Bool
  | none => true
  | some es => es.contains event.closed

/-- A display server that announces the four required globals, configures the
surface once at 1920x1080 and then closes it; the decoder yields a 800x600
image. -/
def sample_environment : environment :=
  ⟨fun _ => 0, fun _ => 0, fun _ => some ⟨800, 600⟩, true,
    [⟨1, wl_compositor_interface_name, 4⟩, ⟨2, wl_shm_interface_name, 1⟩,
      ⟨3, wl_output_interface_name, 3⟩, ⟨4, zwlr_layer_shell_v1_interface_name, 1⟩],
    true, true, [], [some [event.configure 1 1920 1080], some [event.closed]]⟩

/-- The same display server without the layer-shell global. -/
def environment_without_layer_shell : environment :=
  { sample_environment with
    globals := [⟨1, wl_compositor_interface_name, 4⟩, ⟨2, wl_shm_interface_name, 1⟩,
      ⟨3, wl_output_interface_name, 3⟩] }

/-- The same display server, failing `wl_compositor_create_surface`. -/
def environment_without_surface : environment :=
  { sample_environment with wl_compositor_create_surface := false }

/-- The arguments `swaybg 0 bg.png fill`. -/
def sample_argv : List CStr := [cstr "swaybg", cstr "0", cstr "bg.png", cstr "fill"]

/-- The announced globals of the output interface, in the order of their
announcement. -/
def announced_outputs (globals : List wl_global) : List wl_global :=
  globals.filter (fun g => streq g.interface wl_output_interface_name)

/-- The serials acknowledged in a list of calls, oldest first. -/
def acked_serials (cs : List call) : List Nat :=
  cs.filterMap (fun c =>
    match c with
    | zwlr_layer_surface_v1_ack_configure serial => some serial
    | _ => none)

/-- The sizes at which a buffer was acquired in a list of calls, oldest first. -/
def acquired_sizes (cs : List call) : List (Nat × Nat) :=
  cs.filterMap (fun c =>
    match c with
    | get_next_buffer width height => some (width, height)
    | _ => none)

/-- Number of `cairo_paint` calls in a list of calls. -/
def paint_count (cs : List call) : Nat :=
  (cs.filter (fun c => decide (c = cairo cairo_paint))).length

/-- The configure event carrying `(serial, width, height)`. -/
def configure_event (c : Nat × Nat × Nat) : event :=
  event.configure c.1 c.2.1 c.2.2

/-! ## Lemmas on the helpers -/

theorem to_int32_of_lt (n : Int) (h0 : 0 ≤ n) (h : n < 2147483648) : to_int32 n = n := by
  unfold to_int32
  omega

theorem xdigit_loop_iff (color : CStr) (n i : Nat) :
    xdigit_loop color i n = true ↔
      ∀ j, i ≤ j → j < i + n → isxdigit (char_at color j) = true := by
  induction n generalizing i with
  | zero =>
    simp only [xdigit_loop, true_iff]
    intro j h1 h2
    omega
  | succ n ih =>
    simp only [xdigit_loop]
    by_cases hx : isxdigit (char_at color i) = true
    · simp only [hx, Bool.not_true, Bool.false_eq_true, if_false, ih]
      constructor
      · intro h j h1 h2
        by_cases hj : j = i
        · subst hj; exact hx
        · exact h j (by omega) (by omega)
      · intro h j h1 h2
        exact h j (by omega) (by omega)
    · have hx2 : isxdigit (char_at color i) = false := by simpa using hx
      simp only [hx2, Bool.not_false, if_true, Bool.false_eq_true, false_iff]
      intro h
      exact hx (h i (le_refl i) (by omega))

theorem window_wider_iff (W H iw ih : Int) (hH : 0 < H) (hih : 0 < ih) (hiw : 0 < iw) :
    window_wider ⟨iw, ih⟩ W H = true ↔ (H : ℚ) / ih < (W : ℚ) / iw := by
  have hH' : (0 : ℚ) < H := by exact_mod_cast hH
  have hih' : (0 : ℚ) < ih := by exact_mod_cast hih
  have hiw' : (0 : ℚ) < iw := by exact_mod_cast hiw
  simp only [window_wider, gt_iff_lt, decide_eq_true_eq]
  rw [div_lt_div_iff₀ hih' hH', div_lt_div_iff₀ hih' hiw']
  constructor <;> intro h <;> linarith

theorem scaled_axis_bounds (W w x : ℚ) (hW : 0 < W) (hw : 0 < w) (hx0 : 0 ≤ x) (hx : x ≤ W) :
    0 ≤ x / (W / w) - 0 ∧ x / (W / w) - 0 ≤ w := by
  have e : x / (W / w) - 0 = x * w / W := by
    field_simp
  rw [e]
  refine ⟨by positivity, ?_⟩
  rw [div_le_iff₀ hW]
  nlinarith

theorem centred_axis_bounds (W H w h y : ℚ) (hW : 0 < W) (hw : 0 < w)
    (hr : H * w ≤ h * W) (hy0 : 0 ≤ y) (hy : y ≤ H) :
    0 ≤ y / (W / w) - (H / 2 / (W / w) - h / 2) ∧
      y / (W / w) - (H / 2 / (W / w) - h / 2) ≤ h := by
  have e : y / (W / w) - (H / 2 / (W / w) - h / 2) = (y * w - H * w / 2 + h * W / 2) / W := by
    field_simp
    ring
  rw [e]
  have h1 : 0 ≤ y * w := mul_nonneg hy0 hw.le
  have h2 : y * w ≤ H * w := mul_le_mul_of_nonneg_right hy hw.le
  constructor
  · apply div_nonneg _ hW.le
    linarith
  · rw [div_le_iff₀ hW]
    linarith

theorem fit_scaled_axis_bounds (H h sy : ℚ) (hH : 0 < H) (hh : 0 < h)
    (hs0 : 0 ≤ sy) (hs : sy ≤ h) :
    0 ≤ (sy + 0) * (H / h) ∧ (sy + 0) * (H / h) ≤ H := by
  have e : (sy + 0) * (H / h) = sy * H / h := by
    field_simp
  rw [e]
  refine ⟨by positivity, ?_⟩
  rw [div_le_iff₀ hh]
  nlinarith

theorem fit_centred_axis_bounds (W H w h sx : ℚ) (hH : 0 < H) (hh : 0 < h)
    (hr : w * H ≤ W * h) (hs0 : 0 ≤ sx) (hs : sx ≤ w) :
    0 ≤ (sx + (W / 2 / (H / h) - w / 2)) * (H / h) ∧
      (sx + (W / 2 / (H / h) - w / 2)) * (H / h) ≤ W := by
  have e : (sx + (W / 2 / (H / h) - w / 2)) * (H / h) = (sx * H + W * h / 2 - w * H / 2) / h := by
    field_simp
    ring
  rw [e]
  have h1 : 0 ≤ sx * H := mul_nonneg hs0 hH.le
  have h2 : sx * H ≤ w * H := mul_le_mul_of_nonneg_right hs hH.le
  constructor
  · apply div_nonneg _ hh.le
    linarith
  · rw [div_le_iff₀ hh]
    linarith

theorem centre_offset_zero (W w : ℚ) (hW : 0 < W) (_hw : 0 < w) :
    W / 2 / (W / w) - w / 2 = 0 := by
  field_simp
  ring

/-! ## Colour validation -/

/-- Claim C1: for every string whose length fits in an `int`, `is_valid_color`
returns true exactly when the string has 7 characters, starts with `#` and
carries a hexadecimal digit at each of the positions 1 to 6; `prepare_context`
in solid-colour mode succeeds on exactly those strings. -/
theorem is_valid_color_iff (s : CStr) (hlen : strlen s < 2147483648)
    (parse_color : CStr → Nat) (load : CStr → Option cairo_surface_t)
    (idx : Int) (context : swaybg_context) :
    (is_valid_color s = true ↔
      strlen s = 7 ∧ char_at s 0 = '#'.toNat ∧
        ∀ i, 1 ≤ i → i ≤ 6 → isxdigit (char_at s i) = true) ∧
    ((prepare_context parse_color load ⟨idx, s, BACKGROUND_MODE_SOLID_COLOR⟩ context).1 = true ↔
      strlen s = 7 ∧ char_at s 0 = '#'.toNat ∧
        ∀ i, 1 ≤ i → i ≤ 6 → isxdigit (char_at s i) = true) := by
  have key : is_valid_color s = true ↔
      strlen s = 7 ∧ char_at s 0 = '#'.toNat ∧
        ∀ i, 1 ≤ i → i ≤ 6 → isxdigit (char_at s i) = true := by
    have hw : to_int32 (strlen s) = (strlen s : Int) :=
      to_int32_of_lt _ (by omega) (by omega)
    unfold is_valid_color
    simp only [hw]
    by_cases h7 : strlen s = 7
    · by_cases h0 : char_at s 0 = '#'.toNat
      · have hn : ((7 : Int) - 1).toNat = 6 := by decide
        simp only [h7, h0, Nat.cast_ofNat, ne_eq, not_true_eq_false, or_self, if_false,
          true_and, hn, xdigit_loop_iff]
        constructor
        · intro h i h1 h2
          exact h i h1 (by omega)
        · intro h i h1 h2
          exact h i h1 (by omega)
      · have h0n : ¬ char_at s 0 = 35 := h0
        simp [h0n]
    · have h7i : ¬ ((strlen s : Int) = 7) := by omega
      simp [h7, h7i]
  refine ⟨key, ?_⟩
  simpa [prepare_context] using key

/-- Witness for C1 on the strings of the specification: `#1a2b3c` is accepted;
`1a2b3c`, `#1a2b3` and `#1a2b3g` are rejected. -/
theorem is_valid_color_witness :
    is_valid_color (cstr "#1a2b3c") = true ∧
    is_valid_color (cstr "1a2b3c") = false ∧
    is_valid_color (cstr "#1a2b3") = false ∧
    is_valid_color (cstr "#1a2b3g") = false := by
  refine ⟨?_, ?_, ?_, ?_⟩
  · exact (is_valid_color_iff (cstr "#1a2b3c") (by decide) (fun _ => 0) (fun _ => none) 0
      ⟨0, none⟩).1.2 (by decide)
  · have h := (is_valid_color_iff (cstr "1a2b3c") (by decide) (fun _ => 0) (fun _ => none) 0
      ⟨0, none⟩).1
    cases hv : is_valid_color (cstr "1a2b3c") with
    | false => rfl
    | true => exact absurd (h.1 hv).1 (by decide)
  · have h := (is_valid_color_iff (cstr "#1a2b3") (by decide) (fun _ => 0) (fun _ => none) 0
      ⟨0, none⟩).1
    cases hv : is_valid_color (cstr "#1a2b3") with
    | false => rfl
    | true => exact absurd (h.1 hv).1 (by decide)
  · have h := (is_valid_color_iff (cstr "#1a2b3g") (by decide) (fun _ => 0) (fun _ => none) 0
      ⟨0, none⟩).1
    cases hv : is_valid_color (cstr "#1a2b3g") with
    | false => rfl
    | true => exact absurd ((h.1 hv).2.2 6 (by decide) (by decide)) (by decide)

/-! ## Fill, fit and stretch -/

/-- Claim C2: in fill mode, for positive destination and source sizes,
`render_background_image` scales both axes by `max (W/iw) (H/ih)`, puts offset 0
on the axis whose ratio is the larger one and `destSize/2/s - sourceSize/2` on
the other axis. -/
theorem fill_scale_and_offset (W H iw ih : Int)
    (hW : 0 < W) (hH : 0 < H) (hiw : 0 < iw) (hih : 0 < ih) :
    ∃ ox oy : ℚ,
      render_background_image ⟨iw, ih⟩ BACKGROUND_MODE_FILL W H =
        some [cairo_scale (max ((W : ℚ) / iw) ((H : ℚ) / ih)) (max ((W : ℚ) / iw) ((H : ℚ) / ih)),
          cairo_set_source_surface ox oy, cairo_paint] ∧
      ((H : ℚ) / ih ≤ (W : ℚ) / iw →
        ox = 0 ∧ oy = (H : ℚ) / 2 / max ((W : ℚ) / iw) ((H : ℚ) / ih) - (ih : ℚ) / 2) ∧
      ((W : ℚ) / iw ≤ (H : ℚ) / ih →
        oy = 0 ∧ ox = (W : ℚ) / 2 / max ((W : ℚ) / iw) ((H : ℚ) / ih) - (iw : ℚ) / 2) := by
  have hW' : (0 : ℚ) < W := by exact_mod_cast hW
  have hH' : (0 : ℚ) < H := by exact_mod_cast hH
  have hiw' : (0 : ℚ) < iw := by exact_mod_cast hiw
  have hih' : (0 : ℚ) < ih := by exact_mod_cast hih
  by_cases hb : window_wider ⟨iw, ih⟩ W H = true
  · have hlt := (window_wider_iff W H iw ih hH hih hiw).1 hb
    have hmax : max ((W : ℚ) / iw) ((H : ℚ) / ih) = (W : ℚ) / iw := max_eq_left hlt.le
    refine ⟨0, (H : ℚ) / 2 / ((W : ℚ) / iw) - (ih : ℚ) / 2, ?_, ?_, ?_⟩
    · simp [render_background_image, hb, hmax]
    · intro _
      rw [hmax]
      exact ⟨rfl, rfl⟩
    · intro hle
      exact absurd hle (not_le.2 hlt)
  · have hle : (W : ℚ) / iw ≤ (H : ℚ) / ih := by
      rw [window_wider_iff W H iw ih hH hih hiw] at hb
      exact not_lt.1 hb
    have hmax : max ((W : ℚ) / iw) ((H : ℚ) / ih) = (H : ℚ) / ih := max_eq_right hle
    refine ⟨(W : ℚ) / 2 / ((H : ℚ) / ih) - (iw : ℚ) / 2, 0, ?_, ?_, ?_⟩
    · simp [render_background_image, hb, hmax]
    · intro hge
      have heq : (H : ℚ) / ih = (W : ℚ) / iw := le_antisymm hge hle
      rw [hmax]
      refine ⟨?_, ?_⟩
      · rw [heq]
        exact centre_offset_zero _ _ hW' hiw'
      · exact (centre_offset_zero _ _ hH' hih').symm
    · intro _
      rw [hmax]
      exact ⟨rfl, rfl⟩

/-- Witness for C2 at the sizes of the specification: a 800x600 image on a
1920x1080 destination is scaled by 2.4 with offsets x = 0 and y = -75. -/
theorem fill_scale_and_offset_witness :
    render_background_image ⟨800, 600⟩ BACKGROUND_MODE_FILL 1920 1080 =
      some [cairo_scale (12 / 5) (12 / 5), cairo_set_source_surface 0 (-75), cairo_paint] := by
  obtain ⟨ox, oy, h, h1, _⟩ :=
    fill_scale_and_offset 1920 1080 800 600 (by decide) (by decide) (by decide) (by decide)
  have hmax : max (((1920 : Int) : ℚ) / ((800 : Int) : ℚ)) (((1080 : Int) : ℚ) / ((600 : Int) : ℚ))
      = 12 / 5 := by
    rw [max_eq_left (by norm_num)]
    norm_num
  obtain ⟨hx, hy⟩ := h1 (by norm_num)
  rw [h, hmax, hx, hy, hmax]
  norm_num

/-- Claim C3: in fill mode, for positive sizes, every destination point of
`[0, W] x [0, H]` is painted from a source point `(x/s - ox, y/s - oy)` that
lies inside the source rectangle `[0, iw] x [0, ih]`. -/
theorem fill_covers_destination (W H iw ih : Int)
    (hW : 0 < W) (hH : 0 < H) (hiw : 0 < iw) (hih : 0 < ih) :
    ∃ t : transform,
      paint_transform ⟨iw, ih⟩ BACKGROUND_MODE_FILL W H = some t ∧
      ∀ x y : ℚ, 0 ≤ x → x ≤ W → 0 ≤ y → y ≤ H →
        0 ≤ (dest_to_source t x y).1 ∧ (dest_to_source t x y).1 ≤ iw ∧
        0 ≤ (dest_to_source t x y).2 ∧ (dest_to_source t x y).2 ≤ ih := by
  have hW' : (0 : ℚ) < W := by exact_mod_cast hW
  have hH' : (0 : ℚ) < H := by exact_mod_cast hH
  have hiw' : (0 : ℚ) < iw := by exact_mod_cast hiw
  have hih' : (0 : ℚ) < ih := by exact_mod_cast hih
  by_cases hb : window_wider ⟨iw, ih⟩ W H = true
  · have hlt := (window_wider_iff W H iw ih hH hih hiw).1 hb
    have hr : (H : ℚ) * iw ≤ ih * W := by
      rw [div_lt_div_iff₀ hih' hiw'] at hlt
      linarith
    refine ⟨⟨(W : ℚ) / iw, (W : ℚ) / iw, 0, (H : ℚ) / 2 / ((W : ℚ) / iw) - (ih : ℚ) / 2, false⟩,
      ?_, ?_⟩
    · simp [paint_transform, render_background_image, hb, cairo_step, transform.identity]
    · intro x y hx0 hx hy0 hy
      obtain ⟨a1, a2⟩ := scaled_axis_bounds W iw x hW' hiw' hx0 hx
      obtain ⟨b1, b2⟩ := centred_axis_bounds W H iw ih y hW' hiw' hr hy0 hy
      exact ⟨a1, a2, b1, b2⟩
  · have hle : (W : ℚ) / iw ≤ (H : ℚ) / ih := by
      rw [window_wider_iff W H iw ih hH hih hiw] at hb
      exact not_lt.1 hb
    have hr : (W : ℚ) * ih ≤ iw * H := by
      rw [div_le_div_iff₀ hiw' hih'] at hle
      linarith
    refine ⟨⟨(H : ℚ) / ih, (H : ℚ) / ih, (W : ℚ) / 2 / ((H : ℚ) / ih) - (iw : ℚ) / 2, 0, false⟩,
      ?_, ?_⟩
    · simp [paint_transform, render_background_image, hb, cairo_step, transform.identity]
    · intro x y hx0 hx hy0 hy
      obtain ⟨a1, a2⟩ := centred_axis_bounds H W ih iw x hH' hih' hr hx0 hx
      obtain ⟨b1, b2⟩ := scaled_axis_bounds H ih y hH' hih' hy0 hy
      exact ⟨a1, a2, b1, b2⟩

/-- Witness for C3: a 800x600 image on a 1920x1080 destination. -/
theorem fill_covers_destination_witness :
    ∃ t : transform,
      paint_transform ⟨800, 600⟩ BACKGROUND_MODE_FILL 1920 1080 = some t ∧
      ∀ x y : ℚ, 0 ≤ x → x ≤ ((1920 : Int) : ℚ) → 0 ≤ y → y ≤ ((1080 : Int) : ℚ) →
        0 ≤ (dest_to_source t x y).1 ∧ (dest_to_source t x y).1 ≤ ((800 : Int) : ℚ) ∧
        0 ≤ (dest_to_source t x y).2 ∧ (dest_to_source t x y).2 ≤ ((600 : Int) : ℚ) :=
  fill_covers_destination 1920 1080 800 600 (by decide) (by decide) (by decide) (by decide)

/-- Claim C4: in fit mode, for positive sizes, `render_background_image` scales
both axes by `min (W/iw) (H/ih)`, centres the image with the offset
`destSize/2/s - sourceSize/2` on the axis that has slack and 0 on the other, and
every source point of `[0, iw] x [0, ih]` lands inside `[0, W] x [0, H]`. -/
theorem fit_scale_offset_visible (W H iw ih : Int)
    (hW : 0 < W) (hH : 0 < H) (hiw : 0 < iw) (hih : 0 < ih) :
    ∃ ox oy : ℚ,
      render_background_image ⟨iw, ih⟩ BACKGROUND_MODE_FIT W H =
        some [cairo_scale (min ((W : ℚ) / iw) ((H : ℚ) / ih)) (min ((W : ℚ) / iw) ((H : ℚ) / ih)),
          cairo_set_source_surface ox oy, cairo_paint] ∧
      ((H : ℚ) / ih ≤ (W : ℚ) / iw →
        ox = (W : ℚ) / 2 / min ((W : ℚ) / iw) ((H : ℚ) / ih) - (iw : ℚ) / 2 ∧ oy = 0) ∧
      ((W : ℚ) / iw ≤ (H : ℚ) / ih →
        ox = 0 ∧ oy = (H : ℚ) / 2 / min ((W : ℚ) / iw) ((H : ℚ) / ih) - (ih : ℚ) / 2) ∧
      paint_transform ⟨iw, ih⟩ BACKGROUND_MODE_FIT W H =
        some ⟨min ((W : ℚ) / iw) ((H : ℚ) / ih), min ((W : ℚ) / iw) ((H : ℚ) / ih),
          ox, oy, false⟩ ∧
      ∀ sx sy : ℚ, 0 ≤ sx → sx ≤ iw → 0 ≤ sy → sy ≤ ih →
        0 ≤ (source_to_dest ⟨min ((W : ℚ) / iw) ((H : ℚ) / ih),
            min ((W : ℚ) / iw) ((H : ℚ) / ih), ox, oy, false⟩ sx sy).1 ∧
        (source_to_dest ⟨min ((W : ℚ) / iw) ((H : ℚ) / ih),
            min ((W : ℚ) / iw) ((H : ℚ) / ih), ox, oy, false⟩ sx sy).1 ≤ W ∧
        0 ≤ (source_to_dest ⟨min ((W : ℚ) / iw) ((H : ℚ) / ih),
            min ((W : ℚ) / iw) ((H : ℚ) / ih), ox, oy, false⟩ sx sy).2 ∧
        (source_to_dest ⟨min ((W : ℚ) / iw) ((H : ℚ) / ih),
            min ((W : ℚ) / iw) ((H : ℚ) / ih), ox, oy, false⟩ sx sy).2 ≤ H := by
  have hW' : (0 : ℚ) < W := by exact_mod_cast hW
  have hH' : (0 : ℚ) < H := by exact_mod_cast hH
  have hiw' : (0 : ℚ) < iw := by exact_mod_cast hiw
  have hih' : (0 : ℚ) < ih := by exact_mod_cast hih
  by_cases hb : window_wider ⟨iw, ih⟩ W H = true
  · have hlt := (window_wider_iff W H iw ih hH hih hiw).1 hb
    have hmin : min ((W : ℚ) / iw) ((H : ℚ) / ih) = (H : ℚ) / ih := min_eq_right hlt.le
    have hr : (iw : ℚ) * H ≤ W * ih := by
      rw [div_lt_div_iff₀ hih' hiw'] at hlt
      linarith
    refine ⟨(W : ℚ) / 2 / ((H : ℚ) / ih) - (iw : ℚ) / 2, 0, ?_, ?_, ?_, ?_, ?_⟩
    · simp [render_background_image, hb, hmin]
    · intro _
      rw [hmin]
      exact ⟨rfl, rfl⟩
    · intro hle
      exact absurd hle (not_le.2 hlt)
    · simp [paint_transform, render_background_image, hb, hmin, cairo_step, transform.identity]
    · intro sx sy hx0 hx hy0 hy
      rw [hmin]
      obtain ⟨a1, a2⟩ := fit_centred_axis_bounds W H iw ih sx hH' hih' hr hx0 hx
      obtain ⟨b1, b2⟩ := fit_scaled_axis_bounds H ih sy hH' hih' hy0 hy
      exact ⟨a1, a2, b1, b2⟩
  · have hle : (W : ℚ) / iw ≤ (H : ℚ) / ih := by
      rw [window_wider_iff W H iw ih hH hih hiw] at hb
      exact not_lt.1 hb
    have hmin : min ((W : ℚ) / iw) ((H : ℚ) / ih) = (W : ℚ) / iw := min_eq_left hle
    have hr : (ih : ℚ) * W ≤ H * iw := by
      rw [div_le_div_iff₀ hiw' hih'] at hle
      linarith
    refine ⟨0, (H : ℚ) / 2 / ((W : ℚ) / iw) - (ih : ℚ) / 2, ?_, ?_, ?_, ?_, ?_⟩
    · simp [render_background_image, hb, hmin]
    · intro hge
      have heq : (H : ℚ) / ih = (W : ℚ) / iw := le_antisymm hge hle
      rw [hmin]
      refine ⟨(centre_offset_zero _ _ hW' hiw').symm, ?_⟩
      rw [← heq]
      exact centre_offset_zero _ _ hH' hih'
    · intro _
      rw [hmin]
      exact ⟨rfl, rfl⟩
    · simp [paint_transform, render_background_image, hb, hmin, cairo_step, transform.identity]
    · intro sx sy hx0 hx hy0 hy
      rw [hmin]
      obtain ⟨a1, a2⟩ := fit_scaled_axis_bounds W iw sx hW' hiw' hx0 hx
      obtain ⟨b1, b2⟩ := fit_centred_axis_bounds H W ih iw sy hW' hiw' hr hy0 hy
      exact ⟨a1, a2, b1, b2⟩

/-- Witness for C4: a 800x600 image fitted into 1920x1080 is scaled by 1.8 and
centred horizontally at offset 400/3. -/
theorem fit_scale_offset_visible_witness :
    render_background_image ⟨800, 600⟩ BACKGROUND_MODE_FIT 1920 1080 =
      some [cairo_scale (9 / 5) (9 / 5), cairo_set_source_surface (400 / 3) 0, cairo_paint] := by
  obtain ⟨ox, oy, h, h1, _, _, _⟩ :=
    fit_scale_offset_visible 1920 1080 800 600 (by decide) (by decide) (by decide) (by decide)
  have hmin : min (((1920 : Int) : ℚ) / ((800 : Int) : ℚ)) (((1080 : Int) : ℚ) / ((600 : Int) : ℚ))
      = 9 / 5 := by
    rw [min_eq_right (by norm_num)]
    norm_num
  obtain ⟨hx, hy⟩ := h1 (by norm_num)
  rw [h, hmin, hx, hy, hmin]
  norm_num

/-- Claim C8: for positive sizes the stretch scale factors for painting an
`iw x ih` source into `W x H` and for painting the `W x H` result back into
`iw x ih` are `(W/iw, H/ih)` and `(iw/W, ih/H)`; they are inverses, the two
transforms compose to the identity on every coordinate, and each maps the
source origin to the destination origin. -/
theorem stretch_round_trip (W H iw ih : Int)
    (hW : 0 < W) (hH : 0 < H) (hiw : 0 < iw) (hih : 0 < ih) :
    ∃ t1 t2 : transform,
      paint_transform ⟨iw, ih⟩ BACKGROUND_MODE_STRETCH W H = some t1 ∧
      paint_transform ⟨W, H⟩ BACKGROUND_MODE_STRETCH iw ih = some t2 ∧
      t1.scale_x = (W : ℚ) / iw ∧ t1.scale_y = (H : ℚ) / ih ∧
      t2.scale_x = (iw : ℚ) / W ∧ t2.scale_y = (ih : ℚ) / H ∧
      t1.scale_x * t2.scale_x = 1 ∧ t1.scale_y * t2.scale_y = 1 ∧
      (∀ x y : ℚ,
        source_to_dest t2 (source_to_dest t1 x y).1 (source_to_dest t1 x y).2 = (x, y)) ∧
      source_to_dest t1 0 0 = (0, 0) ∧ source_to_dest t2 0 0 = (0, 0) := by
  have hW' : (W : ℚ) ≠ 0 := by exact_mod_cast hW.ne'
  have hH' : (H : ℚ) ≠ 0 := by exact_mod_cast hH.ne'
  have hiw' : (iw : ℚ) ≠ 0 := by exact_mod_cast hiw.ne'
  have hih' : (ih : ℚ) ≠ 0 := by exact_mod_cast hih.ne'
  refine ⟨⟨(W : ℚ) / iw, (H : ℚ) / ih, 0, 0, false⟩, ⟨(iw : ℚ) / W, (ih : ℚ) / H, 0, 0, false⟩,
    ?_, ?_, rfl, rfl, rfl, rfl, ?_, ?_, ?_, ?_, ?_⟩
  · simp [paint_transform, render_background_image, cairo_step, transform.identity]
  · simp [paint_transform, render_background_image, cairo_step, transform.identity]
  · show (W : ℚ) / iw * ((iw : ℚ) / W) = 1
    field_simp
  · show (H : ℚ) / ih * ((ih : ℚ) / H) = 1
    field_simp
  · intro x y
    simp only [source_to_dest, add_zero, Prod.mk.injEq]
    constructor
    · field_simp
    · field_simp
  · simp [source_to_dest]
  · simp [source_to_dest]

/-- Witness for C8: a 800x600 source stretched to 1920x1080 and back. -/
theorem stretch_round_trip_witness :
    ∃ t1 t2 : transform,
      paint_transform ⟨800, 600⟩ BACKGROUND_MODE_STRETCH 1920 1080 = some t1 ∧
      paint_transform ⟨1920, 1080⟩ BACKGROUND_MODE_STRETCH 800 600 = some t2 ∧
      t1.scale_x * t2.scale_x = 1 ∧ t1.scale_y * t2.scale_y = 1 := by
  obtain ⟨t1, t2, h1, h2, _, _, _, _, hx, hy, _⟩ :=
    stretch_round_trip 1920 1080 800 600 (by decide) (by decide) (by decide) (by decide)
  exact ⟨t1, t2, h1, h2, hx, hy⟩

/-! ## Equal sizes and the tie-break -/

/-- Claim C5, as the code has it: for the five image modes, painting a source
of the size of the destination uses scale 1 on both axes and source origin
`(0, 0)`, so every destination point shows the source point of the same
coordinates; only the tile mode repeats the source, and on `[0, W) x [0, H)` it
shows the copy of index `(0, 0)`. In solid-colour mode
`render_background_image` stops at its assertion and issues no call. -/
theorem equal_size_is_identity (W H : Int) (hW : 0 < W) (hH : 0 < H) :
    (∀ mode : background_mode, mode ≠ BACKGROUND_MODE_SOLID_COLOR →
      ∃ t : transform,
        paint_transform ⟨W, H⟩ mode W H = some t ∧
        t.scale_x = 1 ∧ t.scale_y = 1 ∧ t.origin_x = 0 ∧ t.origin_y = 0 ∧
        (t.tiled = true ↔ mode = BACKGROUND_MODE_TILE) ∧
        (∀ x y : ℚ, dest_to_source t x y = (x, y)) ∧
        (∀ x y : ℚ, 0 ≤ x → x < W → 0 ≤ y → y < H →
          tile_index W (dest_to_source t x y).1 = 0 ∧
          tile_index H (dest_to_source t x y).2 = 0)) ∧
    render_background_image ⟨W, H⟩ BACKGROUND_MODE_SOLID_COLOR W H = none := by
  have hW' : (0 : ℚ) < W := by exact_mod_cast hW
  have hH' : (0 : ℚ) < H := by exact_mod_cast hH
  have hnw : window_wider ⟨W, H⟩ W H = false := by
    simp [window_wider]
  have htile : ∀ x y : ℚ, 0 ≤ x → x < W → 0 ≤ y → y < H →
      tile_index W x = 0 ∧ tile_index H y = 0 := by
    intro x y hx0 hx hy0 hy
    unfold tile_index
    constructor
    · rw [Int.floor_eq_iff]
      constructor
      · simp only [Int.cast_zero]
        positivity
      · simp only [Int.cast_zero, zero_add]
        rw [div_lt_one hW']
        exact hx
    · rw [Int.floor_eq_iff]
      constructor
      · simp only [Int.cast_zero]
        positivity
      · simp only [Int.cast_zero, zero_add]
        rw [div_lt_one hH']
        exact hy
  refine ⟨?_, rfl⟩
  intro mode hmode
  refine ⟨⟨1, 1, 0, 0, decide (mode = BACKGROUND_MODE_TILE)⟩, ?_, rfl, rfl, rfl, rfl, ?_,
    ?_, ?_⟩
  · cases mode with
    | BACKGROUND_MODE_STRETCH =>
      simp [paint_transform, render_background_image, cairo_step, transform.identity,
        hW'.ne', hH'.ne']
    | BACKGROUND_MODE_FILL =>
      simp [paint_transform, render_background_image, cairo_step, transform.identity,
        hnw, hW'.ne', hH'.ne']
    | BACKGROUND_MODE_FIT =>
      simp [paint_transform, render_background_image, cairo_step, transform.identity,
        hnw, hW'.ne', hH'.ne']
    | BACKGROUND_MODE_CENTER =>
      simp [paint_transform, render_background_image, cairo_step, transform.identity]
    | BACKGROUND_MODE_TILE =>
      simp [paint_transform, render_background_image, cairo_step, transform.identity]
    | BACKGROUND_MODE_SOLID_COLOR => exact absurd rfl hmode
  · simp
  · intro x y
    simp [dest_to_source]
  · intro x y hx0 hx hy0 hy
    simpa [dest_to_source] using htile x y hx0 hx hy0 hy

/-- Witness for C5: the 10x10 source on the 10x10 destination in the five image
modes, with the transform written out. -/
theorem equal_size_is_identity_witness :
    paint_transform ⟨10, 10⟩ BACKGROUND_MODE_STRETCH 10 10 = some ⟨1, 1, 0, 0, false⟩ ∧
    paint_transform ⟨10, 10⟩ BACKGROUND_MODE_FILL 10 10 = some ⟨1, 1, 0, 0, false⟩ ∧
    paint_transform ⟨10, 10⟩ BACKGROUND_MODE_FIT 10 10 = some ⟨1, 1, 0, 0, false⟩ ∧
    paint_transform ⟨10, 10⟩ BACKGROUND_MODE_CENTER 10 10 = some ⟨1, 1, 0, 0, false⟩ ∧
    paint_transform ⟨10, 10⟩ BACKGROUND_MODE_TILE 10 10 = some ⟨1, 1, 0, 0, true⟩ := by
  have key : ∀ mode : background_mode, mode ≠ BACKGROUND_MODE_SOLID_COLOR →
      paint_transform ⟨10, 10⟩ mode 10 10 =
        some ⟨1, 1, 0, 0, decide (mode = BACKGROUND_MODE_TILE)⟩ := by
    intro mode hmode
    obtain ⟨t, ht, h1, h2, h3, h4, h5, _⟩ :=
      (equal_size_is_identity 10 10 (by decide) (by decide)).1 mode hmode
    rw [ht]
    cases t with
    | mk a b c d e =>
      simp only at h1 h2 h3 h4 h5
      subst h1 h2 h3 h4
      congr 2
      by_cases hm : mode = BACKGROUND_MODE_TILE
      · simp [hm, h5.2 hm]
      · have he : e = false := by
          cases e with
          | false => rfl
          | true => exact absurd (h5.1 rfl) hm
        simp [hm, he]
  exact ⟨key _ (by decide), key _ (by decide), key _ (by decide), key _ (by decide),
    key _ (by decide)⟩

/-- Counterexample to C5 as stated: in solid-colour mode the 10x10 source on the
10x10 destination gets no transform at all from `render_background_image`,
which stops at `assert(0)`. -/
theorem solid_color_has_no_transform :
    render_background_image ⟨10, 10⟩ BACKGROUND_MODE_SOLID_COLOR 10 10 = none ∧
    ¬ ∃ t : transform,
      paint_transform ⟨10, 10⟩ BACKGROUND_MODE_SOLID_COLOR 10 10 = some t ∧
      t.scale_x = 1 ∧ t.scale_y = 1 ∧ t.origin_x = 0 ∧ t.origin_y = 0 := by
  refine ⟨rfl, ?_⟩
  rintro ⟨t, ht, _⟩
  simp [paint_transform, render_background_image] at ht

/-- Claim C6, as the code has it: for positive sizes the fill and fit cases take
their first branch exactly when `W/H > iw/ih`; when the two ratios are equal
they take the `else` branch, the one also taken when the window is narrower
(`W/H < iw/ih`), and nothing treats equality apart. At equality the two
branches would issue the same calls: the two scales agree and both centring
offsets are 0. -/
theorem tie_takes_else_branch (W H iw ih : Int)
    (hW : 0 < W) (hH : 0 < H) (hiw : 0 < iw) (hih : 0 < ih) :
    (window_wider ⟨iw, ih⟩ W H = true ↔ (W : ℚ) / H > (iw : ℚ) / ih) ∧
    ((W : ℚ) / H = (iw : ℚ) / ih ∨ (W : ℚ) / H < (iw : ℚ) / ih →
      window_wider ⟨iw, ih⟩ W H = false ∧
      render_background_image ⟨iw, ih⟩ BACKGROUND_MODE_FILL W H =
        some [cairo_scale ((H : ℚ) / ih) ((H : ℚ) / ih),
          cairo_set_source_surface ((W : ℚ) / 2 / ((H : ℚ) / ih) - (iw : ℚ) / 2) 0,
          cairo_paint] ∧
      render_background_image ⟨iw, ih⟩ BACKGROUND_MODE_FIT W H =
        some [cairo_scale ((W : ℚ) / iw) ((W : ℚ) / iw),
          cairo_set_source_surface 0 ((H : ℚ) / 2 / ((W : ℚ) / iw) - (ih : ℚ) / 2),
          cairo_paint]) ∧
    ((W : ℚ) / H = (iw : ℚ) / ih →
      (H : ℚ) / ih = (W : ℚ) / iw ∧
      (W : ℚ) / 2 / ((H : ℚ) / ih) - (iw : ℚ) / 2 = 0 ∧
      (H : ℚ) / 2 / ((W : ℚ) / iw) - (ih : ℚ) / 2 = 0) := by
  have hW' : (0 : ℚ) < W := by exact_mod_cast hW
  have hH' : (0 : ℚ) < H := by exact_mod_cast hH
  have hiw' : (0 : ℚ) < iw := by exact_mod_cast hiw
  have hih' : (0 : ℚ) < ih := by exact_mod_cast hih
  have hb : window_wider ⟨iw, ih⟩ W H = true ↔ (W : ℚ) / H > (iw : ℚ) / ih := by
    simp [window_wider]
  refine ⟨hb, ?_, ?_⟩
  · intro h
    have hn : window_wider ⟨iw, ih⟩ W H = false := by
      cases hv : window_wider ⟨iw, ih⟩ W H with
      | false => rfl
      | true =>
        have hgt := hb.1 hv
        rcases h with h | h
        · exact absurd hgt (by rw [h]; exact lt_irrefl _)
        · exact absurd hgt (not_lt.2 h.le)
    refine ⟨hn, ?_, ?_⟩
    · simp [render_background_image, hn]
    · simp [render_background_image, hn]
  · intro h
    have hs : (H : ℚ) / ih = (W : ℚ) / iw := by
      rw [div_eq_div_iff hH'.ne' hih'.ne'] at h
      rw [div_eq_div_iff hih'.ne' hiw'.ne']
      linarith
    refine ⟨hs, ?_, ?_⟩
    · rw [hs]
      exact centre_offset_zero _ _ hW' hiw'
    · rw [← hs]
      exact centre_offset_zero _ _ hH' hih'

/-- Witness for C6: a 10x10 image on a 10x10 destination (equal ratios) takes the
`else` branch. -/
theorem tie_takes_else_branch_witness :
    window_wider ⟨10, 10⟩ 10 10 = false ∧
    render_background_image ⟨10, 10⟩ BACKGROUND_MODE_FILL 10 10 =
      some [cairo_scale 1 1, cairo_set_source_surface 0 0, cairo_paint] := by
  obtain ⟨h1, h2, _⟩ :=
    (tie_takes_else_branch 10 10 10 10 (by decide) (by decide) (by decide) (by decide)).2.1
      (Or.inl rfl)
  refine ⟨h1, ?_⟩
  rw [h2]
  norm_num

/-- Counterexample to C6 as stated: with equal ratios (10x10 on 10x10) the test
`window_ratio > bg_ratio` fails, while for a wider window (20x10) it holds and
for a narrower one (5x10) it fails: equality goes with the narrower window. -/
theorem tie_is_not_the_wider_branch :
    ((10 : ℚ) / 10 = (10 : ℚ) / 10 ∧ window_wider ⟨10, 10⟩ 10 10 = false) ∧
    ((20 : ℚ) / 10 > (10 : ℚ) / 10 ∧ window_wider ⟨10, 10⟩ 20 10 = true) ∧
    ((5 : ℚ) / 10 < (10 : ℚ) / 10 ∧ window_wider ⟨10, 10⟩ 5 10 = false) := by
  refine ⟨⟨rfl, ?_⟩, ⟨by norm_num, ?_⟩, ⟨by norm_num, ?_⟩⟩
  · simp [window_wider]
  · simp [window_wider]
    norm_num
  · simp [window_wider]
    norm_num

/-! ## Discovery -/

theorem handle_global_of_output (state : swaybg_state) (g : wl_global)
    (h : streq g.interface wl_output_interface_name = true) :
    (handle_global state g).output =
        (if state.static_output_idx = state.args.output_idx then some g.name else state.output) ∧
      (handle_global state g).static_output_idx = to_int32 (state.static_output_idx + 1) ∧
      (handle_global state g).args = state.args := by
  have hout : g.interface.takeWhile (fun c => c ≠ 0) =
      wl_output_interface_name.takeWhile (fun c => c ≠ 0) := by
    simpa [streq] using h
  have h1 : streq g.interface wl_compositor_interface_name = false := by
    simp only [streq, hout]
    decide
  have h2 : streq g.interface wl_shm_interface_name = false := by
    simp only [streq, hout]
    decide
  unfold handle_global
  simp only [h1, h2, h, Bool.false_eq_true, if_false, if_true]
  by_cases hc : state.static_output_idx = state.args.output_idx
  · simp [hc]
  · simp [hc]

theorem handle_global_of_other (state : swaybg_state) (g : wl_global)
    (h : streq g.interface wl_output_interface_name = false) :
    (handle_global state g).output = state.output ∧
      (handle_global state g).static_output_idx = state.static_output_idx ∧
      (handle_global state g).args = state.args := by
  unfold handle_global
  simp only [h, Bool.false_eq_true, if_false]
  split_ifs <;> exact ⟨rfl, rfl, rfl⟩

theorem discover_output_from (globals : List wl_global) (state : swaybg_state)
    (h0 : 0 ≤ state.static_output_idx)
    (hcount : state.static_output_idx + (announced_outputs globals).length < 2147483648) :
    (discover state globals).output =
      if state.args.output_idx < state.static_output_idx then state.output
      else
        match (announced_outputs globals)[(state.args.output_idx - state.static_output_idx).toNat]? with
        | some g => some g.name
        | none => state.output := by
  induction globals generalizing state with
  | nil => simp [discover, announced_outputs]
  | cons g gs ih =>
    have hstep : discover state (g :: gs) = discover (handle_global state g) gs := rfl
    rw [hstep]
    by_cases hg : streq g.interface wl_output_interface_name = true
    · obtain ⟨ho, hc, ha⟩ := handle_global_of_output state g hg
      have hf : announced_outputs (g :: gs) = g :: announced_outputs gs := by
        simp [announced_outputs, hg]
      rw [hf] at hcount ⊢
      simp only [List.length_cons, Nat.cast_add, Nat.cast_one] at hcount
      have hw : to_int32 (state.static_output_idx + 1) = state.static_output_idx + 1 :=
        to_int32_of_lt _ (by omega) (by omega)
      rw [hw] at hc
      rw [ih (handle_global state g) (by rw [hc]; omega) (by rw [hc]; omega), hc, ha, ho]
      by_cases hlt : state.args.output_idx < state.static_output_idx
      · have hne : ¬ state.static_output_idx = state.args.output_idx := by omega
        have hlt2 : state.args.output_idx < state.static_output_idx + 1 := by omega
        simp [hlt, hne, hlt2]
      · by_cases heq : state.static_output_idx = state.args.output_idx
        · have hlt2 : state.args.output_idx < state.static_output_idx + 1 := by omega
          simp [heq, hlt2]
        · have hlt2 : ¬ state.args.output_idx < state.static_output_idx + 1 := by omega
          have hidx : (state.args.output_idx - state.static_output_idx).toNat =
              (state.args.output_idx - (state.static_output_idx + 1)).toNat + 1 := by omega
          simp [hlt, heq, hlt2, hidx]
    · have hg2 : streq g.interface wl_output_interface_name = false := by simpa using hg
      obtain ⟨ho, hc, ha⟩ := handle_global_of_other state g hg2
      have hf : announced_outputs (g :: gs) = announced_outputs gs := by
        simp [announced_outputs, hg2]
      rw [hf] at hcount ⊢
      rw [ih (handle_global state g) (by rw [hc]; exact h0) (by rw [hc]; exact hcount), hc, ha, ho]

/-- Claim C9: starting from a fresh counter, for every output index `N >= 0` and
every sequence of announced globals (with fewer than 2^31 outputs, the range of
the `int` counter), the output bound after `handle_global` has seen the whole
sequence is the `N`-th announced output, counting from zero, however the other
globals are interleaved, and none when fewer than `N + 1` outputs are
announced; a global of the compositor, shared-memory or layer-shell interface,
like any global that is not an output, leaves the counter as it is. -/
theorem discover_binds_nth_output (args : swaybg_args) (globals : List wl_global)
    (hN : 0 ≤ args.output_idx)
    (hcount : (announced_outputs globals).length < 2147483648) :
    (discover (initial_state args) globals).output =
        ((announced_outputs globals)[args.output_idx.toNat]?).map (fun g => g.name) ∧
    (∀ (state : swaybg_state) (g : wl_global),
      (streq g.interface wl_compositor_interface_name = true ∨
        streq g.interface wl_shm_interface_name = true ∨
        streq g.interface zwlr_layer_shell_v1_interface_name = true ∨
        streq g.interface wl_output_interface_name = false) →
      (handle_global state g).static_output_idx = state.static_output_idx) := by
  constructor
  · have h := discover_output_from globals (initial_state args) (le_refl _)
      (by simp only [initial_state]; omega)
    rw [h]
    have hlt : ¬ args.output_idx < 0 := by omega
    simp only [initial_state, hlt, if_false, sub_zero]
    cases (announced_outputs globals)[args.output_idx.toNat]? <;> rfl
  · intro state g h
    have hne : streq g.interface wl_output_interface_name = false := by
      rcases h with h | h | h | h
      · have e : g.interface.takeWhile (fun c => c ≠ 0) =
            wl_compositor_interface_name.takeWhile (fun c => c ≠ 0) := by
          simpa [streq] using h
        simp only [streq, e]
        decide
      · have e : g.interface.takeWhile (fun c => c ≠ 0) =
            wl_shm_interface_name.takeWhile (fun c => c ≠ 0) := by
          simpa [streq] using h
        simp only [streq, e]
        decide
      · have e : g.interface.takeWhile (fun c => c ≠ 0) =
            zwlr_layer_shell_v1_interface_name.takeWhile (fun c => c ≠ 0) := by
          simpa [streq] using h
        simp only [streq, e]
        decide
      · exact h
    exact (handle_global_of_other state g hne).2.1

/-- Witness for C9: with index 1 and outputs announced under the names 2, 4 and
6 between other globals, the output bound is the one named 4. -/
theorem discover_binds_nth_output_witness :
    (discover (initial_state ⟨1, [], BACKGROUND_MODE_STRETCH⟩)
      [⟨1, wl_compositor_interface_name, 1⟩, ⟨2, wl_output_interface_name, 1⟩,
        ⟨3, wl_shm_interface_name, 1⟩, ⟨4, wl_output_interface_name, 1⟩,
        ⟨5, zwlr_layer_shell_v1_interface_name, 1⟩, ⟨6, wl_output_interface_name, 1⟩]).output
      = some 4 :=
  (discover_binds_nth_output ⟨1, [], BACKGROUND_MODE_STRETCH⟩
    [⟨1, wl_compositor_interface_name, 1⟩, ⟨2, wl_output_interface_name, 1⟩,
      ⟨3, wl_shm_interface_name, 1⟩, ⟨4, wl_output_interface_name, 1⟩,
      ⟨5, zwlr_layer_shell_v1_interface_name, 1⟩, ⟨6, wl_output_interface_name, 1⟩]
    (by decide) (by decide)).1.trans (by decide)

/-! ## The configure handler -/

theorem render_background_image_paints_once (image : cairo_surface_t) (mode : background_mode)
    (wwidth wheight : Int) (hmode : mode ≠ BACKGROUND_MODE_SOLID_COLOR) :
    ∃ cs, render_background_image image mode wwidth wheight = some cs ∧ count_paints cs = 1 := by
  cases mode with
  | BACKGROUND_MODE_STRETCH => exact ⟨_, rfl, by simp [count_paints]⟩
  | BACKGROUND_MODE_FILL =>
    simp only [render_background_image]
    split_ifs
    · exact ⟨_, rfl, by simp [count_paints]⟩
    · exact ⟨_, rfl, by simp [count_paints]⟩
  | BACKGROUND_MODE_FIT =>
    simp only [render_background_image]
    split_ifs
    · exact ⟨_, rfl, by simp [count_paints]⟩
    · exact ⟨_, rfl, by simp [count_paints]⟩
  | BACKGROUND_MODE_CENTER => exact ⟨_, rfl, by simp [count_paints]⟩
  | BACKGROUND_MODE_TILE => exact ⟨_, rfl, by simp [count_paints]⟩
  | BACKGROUND_MODE_SOLID_COLOR => exact absurd rfl hmode

theorem paint_count_map_cairo (cs : List cairo_call) :
    paint_count (cs.map cairo) = count_paints cs := by
  induction cs with
  | nil => rfl
  | cons c cs ih =>
    simp only [paint_count, count_paints, List.map_cons, List.filter_cons] at ih ⊢
    by_cases hc : c = cairo_paint
    · simp [hc, ih]
    · simp [hc, ih]

theorem acked_serials_map_cairo (cs : List cairo_call) : acked_serials (cs.map cairo) = [] := by
  induction cs with
  | nil => rfl
  | cons c cs ih => simp [acked_serials]

theorem acquired_sizes_map_cairo (cs : List cairo_call) :
    acquired_sizes (cs.map cairo) = [] := by
  induction cs with
  | nil => rfl
  | cons c cs ih => simp [acquired_sizes]

/-- What one configure event does, for a state whose image is loaded unless the
mode is solid colour. -/
theorem layer_surface_configure_frame (state : swaybg_state) (serial width height : Nat)
    (hctx : state.args.mode ≠ BACKGROUND_MODE_SOLID_COLOR → state.context.image ≠ none) :
    ∃ cs : List cairo_call,
      count_paints cs = 1 ∧
      (state.args.mode = BACKGROUND_MODE_SOLID_COLOR →
        cs = [cairo_set_source_u32 state.context.color, cairo_paint]) ∧
      (∀ image, state.args.mode ≠ BACKGROUND_MODE_SOLID_COLOR →
        state.context.image = some image →
        render_background_image image state.args.mode (to_int32 width) (to_int32 height)
          = some cs) ∧
      layer_surface_configure state serial width height =
        some { state with
          width := width
          height := height
          calls := state.calls ++ [zwlr_layer_surface_v1_ack_configure serial] ++
            [get_next_buffer width height] ++ cs.map cairo ++
            [wl_surface_attach, wl_surface_damage 0 0 (to_int32 width) (to_int32 height),
              wl_surface_commit] } := by
  by_cases hm : state.args.mode = BACKGROUND_MODE_SOLID_COLOR
  · refine ⟨[cairo_set_source_u32 state.context.color, cairo_paint], by simp [count_paints],
      fun _ => rfl, fun _ h => absurd hm h, ?_⟩
    simp [layer_surface_configure, render_frame, hm]
  · cases himg : state.context.image with
    | none => exact absurd himg (hctx hm)
    | some image =>
      obtain ⟨cs, hcs, hp⟩ :=
        render_background_image_paints_once image state.args.mode (to_int32 width)
          (to_int32 height) hm
      refine ⟨cs, hp, fun h => absurd h hm, ?_, ?_⟩
      · intro image2 _ h2
        cases h2
        exact hcs
      · simp [layer_surface_configure, render_frame, hm, himg, hcs]

theorem dispatch_events_configures (cfgs : List (Nat × Nat × Nat)) (state : swaybg_state)
    (hctx : state.args.mode ≠ BACKGROUND_MODE_SOLID_COLOR → state.context.image ≠ none) :
    ∃ final : swaybg_state,
      dispatch_events state (cfgs.map configure_event) = some final ∧
      final.args = state.args ∧ final.context = state.context ∧
      acked_serials final.calls = acked_serials state.calls ++ cfgs.map (fun c => c.1) ∧
      acquired_sizes final.calls = acquired_sizes state.calls ++ cfgs.map (fun c => c.2) ∧
      paint_count final.calls = paint_count state.calls + cfgs.length ∧
      (final.width, final.height) =
        ((cfgs.getLast?).map (fun c => c.2)).getD (state.width, state.height) ∧
      final.run_display = state.run_display := by
  induction cfgs generalizing state with
  | nil => exact ⟨state, rfl, rfl, rfl, by simp, by simp, by simp, by simp, rfl⟩
  | cons c rest ih =>
    obtain ⟨cs, hp, _, _, hcfg⟩ := layer_surface_configure_frame state c.1 c.2.1 c.2.2 hctx
    obtain ⟨final, hrun, hargs, hcontext, hack, hacq, hpaint, hgeo, hflag⟩ :=
      ih { state with
        width := c.2.1
        height := c.2.2
        calls := state.calls ++ [zwlr_layer_surface_v1_ack_configure c.1] ++
          [get_next_buffer c.2.1 c.2.2] ++ cs.map cairo ++
          [wl_surface_attach, wl_surface_damage 0 0 (to_int32 c.2.1) (to_int32 c.2.2),
            wl_surface_commit] } hctx
    refine ⟨final, ?_, hargs, hcontext, ?_, ?_, ?_, ?_, hflag⟩
    · simp only [List.map_cons, dispatch_events, configure_event, dispatch_event, hcfg]
      exact hrun
    · rw [hack]
      have h1 : acked_serials (cs.map cairo) = [] := acked_serials_map_cairo cs
      simp only [acked_serials, List.filterMap_append] at h1 ⊢
      simp [h1]
    · rw [hacq]
      have h1 : acquired_sizes (cs.map cairo) = [] := acquired_sizes_map_cairo cs
      simp only [acquired_sizes, List.filterMap_append] at h1 ⊢
      simp [h1]
    · rw [hpaint]
      have h1 : paint_count (cs.map cairo) = 1 := by rw [paint_count_map_cairo, hp]
      simp only [paint_count, List.filter_append, List.length_append] at h1 ⊢
      simp [h1]
      omega
    · rw [hgeo]
      cases rest with
      | nil => simp
      | cons d rest2 =>
        cases hl : (d :: rest2).getLast? with
        | none => simp at hl
        | some x => simp [List.getLast?_cons_cons, hl]

/-- Claim C10: for every sequence of configure events delivered to a state whose
image is loaded unless the mode is solid colour, the handler returns for each
event, acknowledges the serials in order, acquires one buffer per event at the
size the event carries, paints once per event (so the number of paints is the
number of events, equal sizes included), leaves the size of the last event as
the current geometry and leaves the running flag as it was; and a single event
whose sizes fit an `int` paints the image for exactly its width and height and
damages the whole surface. -/
theorem configure_repaints (state : swaybg_state) (cfgs : List (Nat × Nat × Nat))
    (hctx : state.args.mode ≠ BACKGROUND_MODE_SOLID_COLOR → state.context.image ≠ none) :
    (∃ final : swaybg_state,
      dispatch_events state (cfgs.map configure_event) = some final ∧
      acked_serials final.calls = acked_serials state.calls ++ cfgs.map (fun c => c.1) ∧
      acquired_sizes final.calls = acquired_sizes state.calls ++ cfgs.map (fun c => c.2) ∧
      paint_count final.calls = paint_count state.calls + cfgs.length ∧
      (final.width, final.height) =
        ((cfgs.getLast?).map (fun c => c.2)).getD (state.width, state.height) ∧
      final.run_display = state.run_display) ∧
    (∀ serial width height : Nat, width < 2147483648 → height < 2147483648 →
      ∃ cs : List cairo_call,
        count_paints cs = 1 ∧
        (state.args.mode = BACKGROUND_MODE_SOLID_COLOR →
          cs = [cairo_set_source_u32 state.context.color, cairo_paint]) ∧
        (∀ image, state.args.mode ≠ BACKGROUND_MODE_SOLID_COLOR →
          state.context.image = some image →
          render_background_image image state.args.mode width height = some cs) ∧
        layer_surface_configure state serial width height =
          some { state with
            width := width
            height := height
            calls := state.calls ++ [zwlr_layer_surface_v1_ack_configure serial] ++
              [get_next_buffer width height] ++ cs.map cairo ++
              [wl_surface_attach, wl_surface_damage 0 0 width height, wl_surface_commit] }) := by
  constructor
  · obtain ⟨final, hrun, _, _, hack, hacq, hpaint, hgeo, hflag⟩ :=
      dispatch_events_configures cfgs state hctx
    exact ⟨final, hrun, hack, hacq, hpaint, hgeo, hflag⟩
  · intro serial width height hw hh
    obtain ⟨cs, hp, hsolid, himage, hcfg⟩ :=
      layer_surface_configure_frame state serial width height hctx
    have ew : to_int32 (width : Int) = width := to_int32_of_lt _ (by omega) (by omega)
    have eh : to_int32 (height : Int) = height := to_int32_of_lt _ (by omega) (by omega)
    rw [ew, eh] at hcfg himage
    exact ⟨cs, hp, hsolid, himage, hcfg⟩

/-- Witness for C10: two configure events `(1920, 1080)` on a fill-mode state
with a 800x600 image give two acknowledgements and two paints. -/
theorem configure_repaints_witness :
    ∃ final : swaybg_state,
      dispatch_events
        { initial_state ⟨0, [], BACKGROUND_MODE_FILL⟩ with
          context := ⟨0, some ⟨800, 600⟩⟩, run_display := true }
        [event.configure 1 1920 1080, event.configure 2 1920 1080] = some final ∧
      acked_serials final.calls = [1, 2] ∧
      acquired_sizes final.calls = [(1920, 1080), (1920, 1080)] ∧
      paint_count final.calls = 2 ∧
      (final.width, final.height) = (1920, 1080) ∧
      final.run_display = true := by
  obtain ⟨⟨final, hrun, hack, hacq, hpaint, hgeo, hflag⟩, _⟩ :=
    configure_repaints
      { initial_state ⟨0, [], BACKGROUND_MODE_FILL⟩ with
        context := ⟨0, some ⟨800, 600⟩⟩, run_display := true }
      [(1, 1920, 1080), (2, 1920, 1080)] (by simp [initial_state])
  refine ⟨final, hrun, ?_, ?_, ?_, ?_, ?_⟩
  · simpa [initial_state, acked_serials] using hack
  · simpa [initial_state, acquired_sizes] using hacq
  · simpa [initial_state, paint_count] using hpaint
  · simpa [initial_state] using hgeo
  · simpa [initial_state] using hflag

/-! ## Exit codes of `main` -/

theorem dispatch_events_total (es : List event) (state : swaybg_state)
    (hctx : state.args.mode ≠ BACKGROUND_MODE_SOLID_COLOR → state.context.image ≠ none) :
    ∃ final : swaybg_state,
      dispatch_events state es = some final ∧
      final.args = state.args ∧ final.context = state.context ∧
      final.run_display = (state.run_display && !es.contains event.closed) := by
  induction es generalizing state with
  | nil => exact ⟨state, rfl, rfl, rfl, by simp⟩
  | cons e rest ih =>
    cases e with
    | configure serial width height =>
      obtain ⟨cs, _, _, _, hcfg⟩ := layer_surface_configure_frame state serial width height hctx
      obtain ⟨final, hrun, hargs, hcontext, hflag⟩ :=
        ih { state with
          width := width
          height := height
          calls := state.calls ++ [zwlr_layer_surface_v1_ack_configure serial] ++
            [get_next_buffer width height] ++ cs.map cairo ++
            [wl_surface_attach, wl_surface_damage 0 0 (to_int32 width) (to_int32 height),
              wl_surface_commit] } hctx
      refine ⟨final, ?_, hargs, hcontext, ?_⟩
      · simp only [dispatch_events, dispatch_event, hcfg]
        exact hrun
      · rw [hflag]
        simp [List.contains_cons]
    | closed =>
      obtain ⟨final, hrun, hargs, hcontext, hflag⟩ := ih (layer_surface_closed state) hctx
      refine ⟨final, ?_, hargs, hcontext, ?_⟩
      · simp only [dispatch_events, dispatch_event]
        exact hrun
      · rw [hflag]
        simp [layer_surface_closed, List.contains_cons]

theorem dispatch_loop_returns_zero (ds : List (Option (List event))) (state : swaybg_state)
    (hctx : state.args.mode ≠ BACKGROUND_MODE_SOLID_COLOR → state.context.image ≠ none)
    (hend : ∃ d ∈ ds, terminating d = true) :
    dispatch_loop state ds = returned 0 := by
  induction ds generalizing state with
  | nil =>
    obtain ⟨d, hd, _⟩ := hend
    exact absurd hd (List.not_mem_nil d)
  | cons d rest ih =>
    cases d with
    | none => rfl
    | some es =>
      obtain ⟨final, hrun, hargs, hcontext, hflag⟩ := dispatch_events_total es state hctx
      simp only [dispatch_loop, hrun]
      by_cases hr : final.run_display = true
      · simp only [hr, if_true]
        apply ih final (by rw [hargs, hcontext]; exact hctx)
        obtain ⟨d, hd, ht⟩ := hend
        rcases List.mem_cons.1 hd with h | h
        · subst h
          rw [hflag] at hr
          simp only [terminating] at ht
          rw [ht] at hr
          simp at hr
        · exact ⟨d, h, ht⟩
      · simp [hr]

theorem handle_global_keeps (state : swaybg_state) (g : wl_global) :
    (handle_global state g).args = state.args ∧
      (handle_global state g).context = state.context := by
  unfold handle_global
  split_ifs <;> exact ⟨rfl, rfl⟩

theorem discover_keeps (globals : List wl_global) (state : swaybg_state) :
    (discover state globals).args = state.args ∧
      (discover state globals).context = state.context := by
  induction globals generalizing state with
  | nil => exact ⟨rfl, rfl⟩
  | cons g gs ih =>
    have hstep : discover state (g :: gs) = discover (handle_global state g) gs := rfl
    rw [hstep]
    obtain ⟨h1, h2⟩ := ih (handle_global state g)
    obtain ⟨h3, h4⟩ := handle_global_keeps state g
    exact ⟨h1.trans h3, h2.trans h4⟩

theorem startup_context_image (env : environment) (args : swaybg_args)
    (hok : (startup_context env args).1 = true)
    (hmode : args.mode ≠ BACKGROUND_MODE_SOLID_COLOR) :
    (startup_context env args).2.image ≠ none := by
  unfold startup_context prepare_context at hok ⊢
  simp only [hmode, if_false] at hok ⊢
  cases h : env.load_background_image args.path with
  | none => simp [h] at hok
  | some image => simp

theorem main_of_mode (env : environment) (argv : List CStr) (mode : background_mode)
    (h : argv.length = 4) (hm : mode_of_name (argv.getD 3 []) = some mode) :
    main env argv =
      if !(startup_context env (startup_args env argv mode)).1 then returned 1
      else if !env.wl_display_connect then aborted
      else if !all_bound (discovered_state env (startup_args env argv mode)) then aborted
      else if !env.wl_compositor_create_surface then aborted
      else if !env.get_layer_surface then aborted
      else
        match dispatch_events
          { discovered_state env (startup_args env argv mode) with
            run_display := true
            calls := (discovered_state env (startup_args env argv mode)).calls ++
              [wl_surface_commit] } env.roundtrip_events with
        | none => aborted
        | some state => dispatch_loop state env.dispatches := by
  unfold main
  rw [if_neg (fun hn => hn h)]
  simp only [hm]

/-- Claim C7, as the code has it: `main` returns 1 on a wrong argument count, on
a mode name outside the six and on failed colour validation or image decode; it
is stopped by a failed assertion, returning no code, when the display
connection fails, when a required global is missing after the discovery
round-trip and when surface or layer-surface creation fails; it returns 0 once
a dispatch returns `-1` or delivers a close notification; each of the six mode
names selects its mode. -/
theorem main_exit_codes (env : environment) (argv : List CStr) :
    (argv.length ≠ 4 → main env argv = returned 1) ∧
    (argv.length = 4 → mode_of_name (argv.getD 3 []) = none → main env argv = returned 1) ∧
    (∀ mode, argv.length = 4 → mode_of_name (argv.getD 3 []) = some mode →
      (((mode = BACKGROUND_MODE_SOLID_COLOR ∧ is_valid_color (argv.getD 2 []) = false) ∨
          (mode ≠ BACKGROUND_MODE_SOLID_COLOR ∧
            env.load_background_image (argv.getD 2 []) = none)) ↔
        (startup_context env (startup_args env argv mode)).1 = false) ∧
      ((startup_context env (startup_args env argv mode)).1 = false →
        main env argv = returned 1) ∧
      ((startup_context env (startup_args env argv mode)).1 = true →
        (env.wl_display_connect = false → main env argv = aborted) ∧
        (env.wl_display_connect = true →
          (all_bound (discovered_state env (startup_args env argv mode)) = false →
            main env argv = aborted) ∧
          (all_bound (discovered_state env (startup_args env argv mode)) = true →
            (env.wl_compositor_create_surface = false ∨ env.get_layer_surface = false →
              main env argv = aborted) ∧
            (env.wl_compositor_create_surface = true → env.get_layer_surface = true →
              (∃ d ∈ env.dispatches, terminating d = true) →
              main env argv = returned 0))))) ∧
    (mode_of_name (cstr "stretch") = some BACKGROUND_MODE_STRETCH ∧
      mode_of_name (cstr "fill") = some BACKGROUND_MODE_FILL ∧
      mode_of_name (cstr "fit") = some BACKGROUND_MODE_FIT ∧
      mode_of_name (cstr "center") = some BACKGROUND_MODE_CENTER ∧
      mode_of_name (cstr "tile") = some BACKGROUND_MODE_TILE ∧
      mode_of_name (cstr "solid_color") = some BACKGROUND_MODE_SOLID_COLOR) := by
  refine ⟨?_, ?_, ?_, by decide⟩
  · intro h
    unfold main
    rw [if_pos h]
  · intro h hm
    unfold main
    rw [if_neg (fun hn => hn h)]
    simp only [hm]
  · intro mode h hm
    rw [main_of_mode env argv mode h hm]
    refine ⟨?_, ?_, ?_⟩
    · unfold startup_context prepare_context startup_args
      by_cases hs : mode = BACKGROUND_MODE_SOLID_COLOR
      · simp [hs]
      · cases hl : env.load_background_image (argv.getD 2 []) with
        | none => simp [hs, hl]
        | some image => simp [hs, hl]
    · intro hp
      simp [hp]
    · intro hp
      refine ⟨?_, ?_⟩
      · intro hc
        simp [hp, hc]
      · intro hc
        refine ⟨?_, ?_⟩
        · intro hb
          simp [hp, hc, hb]
        · intro hb
          refine ⟨?_, ?_⟩
          · intro hs
            rcases hs with hs | hs
            · simp [hp, hc, hb, hs]
            · by_cases h1 : env.wl_compositor_create_surface = true
              · simp [hp, hc, hb, hs, h1]
              · simp [hp, hc, hb, hs, h1]
          · intro h1 h2 hend
            have hkeep := discover_keeps env.globals
              { initial_state (startup_args env argv mode) with
                context := (startup_context env (startup_args env argv mode)).2 }
            have hctx : (discovered_state env (startup_args env argv mode)).args.mode ≠
                  BACKGROUND_MODE_SOLID_COLOR →
                (discovered_state env (startup_args env argv mode)).context.image ≠ none := by
              unfold discovered_state
              rw [hkeep.1, hkeep.2]
              intro hmode
              exact startup_context_image env _ hp hmode
            obtain ⟨s1, hrun, hargs, hcontext, _⟩ :=
              dispatch_events_total env.roundtrip_events
                { discovered_state env (startup_args env argv mode) with
                  run_display := true
                  calls := (discovered_state env (startup_args env argv mode)).calls ++
                    [wl_surface_commit] } hctx
            have hloop := dispatch_loop_returns_zero env.dispatches s1
              (by rw [hargs, hcontext]; exact hctx) hend
            simp [hp, hc, hb, h1, h2, hrun, hloop]

/-- Witness for C7: `swaybg 0 bg.png fill` against a display server that
configures the surface once and then closes it returns 0. -/
theorem main_exit_codes_witness : main sample_environment sample_argv = returned 0 := by
  have h := (main_exit_codes sample_environment sample_argv).2.2.1 BACKGROUND_MODE_FILL
    (by decide) (by decide)
  have h2 := ((h.2.2 (by decide)).2 (by decide)).2 (by decide)
  exact h2.2 (by decide) (by decide)
    ⟨some [event.closed], by simp [sample_environment], by decide⟩

/-- Counterexample to C7 as stated: with the layer-shell global missing after
the discovery round-trip, and likewise with surface creation failing, `main`
is stopped by a failed assertion and does not return 1. -/
theorem main_aborts_without_capability :
    main environment_without_layer_shell sample_argv = aborted ∧
    main environment_without_layer_shell sample_argv ≠ returned 1 ∧
    main environment_without_surface sample_argv = aborted ∧
    main environment_without_surface sample_argv ≠ returned 1 := by
  decide

end Swaybg
